import Mathlib

set_option maxRecDepth 100000

/-!
Shallow embedding of `src/examples/common/fs.c` (async resource-loading and
snapshot persistence layer of the chips-test repository).

Modelling conventions:
- C byte strings (`const char*`) are `List Nat` of byte values (each < 256);
  `strlen` is the list length (the terminating NUL is not part of the list).
- The per-channel state struct `fs_channel_state_t` is `FsChannelState`; its
  fixed `uint8_t buf[FS_MAX_SIZE + 1]` array is a total function `Nat → Nat`
  from index to byte, and stores at `buf[i]` are pointwise function updates.
- The `ptr` field is either NULL or points at `buf`, so it is a `Bool`
  (`ptrIsBuf`); machine-integer arithmetic on bytes is `Nat` with explicit
  `% 256` where the C stores into a `uint8_t`.
- External I/O (fopen/fwrite, sfetch_send) is represented by explicit request
  or effect values returned next to the boolean result, so that "no I/O was
  performed or scheduled" is the absence (`none`) of such a value.
- A failed C `assert` is a precondition violation, modelled as `none` in an
  `Option` result.
-/

/-- Path capacity from fs.c: `#define FS_PATH_SIZE (256)`. -/
def FS_PATH_SIZE : Nat := 256

/-- Maximum payload size from fs.c: `#define FS_MAX_SIZE (2024 * 1024)`. -/
def FS_MAX_SIZE : Nat := 2024 * 1024

/-- Result enum `fs_result_t`: FS_RESULT_IDLE / PENDING / SUCCESS / FAILED. -/
inductive FSResult where
  | idle
  | pending
  | success
  | failed
  deriving DecidableEq, Repr

/-- Bounded path `fs_path_t`: `char cstr[FS_PATH_SIZE]; bool clamped;`.
`cstr` holds the stored characters (at most FS_PATH_SIZE - 1, NUL excluded). -/
structure FsPath where
  cstr : List Nat
  clamped : Bool
  deriving DecidableEq, Repr

/-- Channel state `fs_channel_state_t`:
`fs_path_t path; fs_result_t result; uint8_t* ptr; size_t size;
uint8_t buf[FS_MAX_SIZE + 1];`. -/
structure FsChannelState where
  path : FsPath
  result : FSResult
  ptrIsBuf : Bool
  size : Nat
  buf : Nat → Nat

/-- Byte range `chips_range_t { void* ptr; size_t size; }` as passed to
`fs_save_snapshot`; `bytes` are the `size` bytes at `ptr` when non-null. -/
structure ChipsRange where
  ptrIsNull : Bool
  bytes : List Nat
  deriving DecidableEq, Repr

/-- Channel contents after `fs_init` zero-initializes the state
(`memset(&state, 0, sizeof(state))`). -/
def fs_init_channel : FsChannelState :=
  { path := { cstr := [], clamped := false }
    result := FSResult.idle
    ptrIsBuf := false
    size := 0
    buf := fun _ => 0 }

/-- Model of `fs_path_reset`: clears the characters and the clamped flag. -/
def fs_path_reset : FsPath :=
  { cstr := [], clamped := false }

/-- Model of `fs_path_printf`: `vsnprintf` writes at most FS_PATH_SIZE - 1
characters of the formatted output `formatted` plus a NUL, and returns the
untruncated length; `clamped = res >= sizeof(path->cstr)`.  The previous
path contents are overwritten. -/
def fs_path_printf (_path : FsPath) (formatted : List Nat) : FsPath :=
  { cstr := formatted.take (FS_PATH_SIZE - 1)
    clamped := decide (FS_PATH_SIZE ≤ formatted.length) }

/-- Base64 alphabet `fs_base64_table`:
"ABCDEFGHIJKLMNOPQRSTUVWXYZabcdefghijklmnopqrstuvwxyz0123456789+/",
as byte values. -/
def fs_base64_table : List Nat :=
  (List.range 26).map (· + 65) ++ (List.range 26).map (· + 97) ++
    (List.range 10).map (· + 48) ++ [43, 47]

/-- Reverse lookup table `dtable` built at the top of `fs_base64_decode`:
every byte maps to 0x80 (invalid), except the 64 alphabet bytes which map to
their alphabet index, and `'='` (61) which maps to 0. -/
def fs_base64_dtable (c : Nat) : Nat :=
  if c = 61 then 0
  else if c ∈ fs_base64_table then fs_base64_table.indexOf c
  else 0x80

/-- Store of one byte into the channel buffer: `buf[i] = v`. -/
def bufWrite (buf : Nat → Nat) (i v : Nat) : Nat → Nat :=
  fun j => if j = i then v else buf j

/-- Decode loop of `fs_base64_decode` (fs.c lines 131-162): walks the input,
skips invalid bytes, collects valid 6-bit values into `block`, and emits 3
output bytes per full block of 4; `'='` increments `pad`, and a block
containing padding either truncates the output by `pad` (pad 1 or 2, then
`break` and return true) or fails (pad 3 or 4, `return false`). -/
def fs_base64_decode_loop (channel : FsChannelState) (block : List Nat) (pad : Nat)
    (src : List Nat) : Bool × FsChannelState :=
  match src with
  | [] => (true, channel)
  | c :: rest =>
    let tmp := fs_base64_dtable c
    if tmp = 0x80 then
      fs_base64_decode_loop channel block pad rest
    else
      let pad' := if c = 61 then pad + 1 else pad
      let block' := block ++ [tmp]
      if block'.length = 4 then
        let ch1 : FsChannelState :=
          { channel with
            buf := bufWrite channel.buf channel.size
              (((block'.getD 0 0 <<< 2) ||| (block'.getD 1 0 >>> 4)) % 256)
            size := channel.size + 1 }
        let ch2 : FsChannelState :=
          { ch1 with
            buf := bufWrite ch1.buf ch1.size
              (((block'.getD 1 0 <<< 4) ||| (block'.getD 2 0 >>> 2)) % 256)
            size := ch1.size + 1 }
        let ch3 : FsChannelState :=
          { ch2 with
            buf := bufWrite ch2.buf ch2.size
              (((block'.getD 2 0 <<< 6) ||| block'.getD 3 0) % 256)
            size := ch2.size + 1 }
        if 0 < pad' then
          if pad' ≤ 2 then (true, { ch3 with size := ch3.size - pad' })
          else (false, ch3)
        else
          fs_base64_decode_loop ch3 [] pad' rest
      else
        fs_base64_decode_loop channel block' pad' rest

/-- Count of valid base64 symbols in the input, as computed by the counting
loop of `fs_base64_decode` (fs.c lines 113-118). -/
def fs_base64_count (src : List Nat) : Nat :=
  (src.filter (fun c => fs_base64_dtable c != 0x80)).length

/-- Model of `fs_base64_decode` (fs.c lines 103-163): fails when the valid
symbol count is 0 or not a multiple of 4 (`count & 3`), or when the expected
output length `(count / 4) * 3` does not fit `sizeof(channel->buf)` which is
`FS_MAX_SIZE + 1`; otherwise runs the decode loop. -/
def fs_base64_decode (channel : FsChannelState) (src : List Nat) :
    Bool × FsChannelState :=
  let count := fs_base64_count src
  if count = 0 ∨ count &&& 3 ≠ 0 then (false, channel)
  else
    let olen := (count / 4) * 3
    if FS_MAX_SIZE + 1 ≤ olen then (false, channel)
    else fs_base64_decode_loop channel [] 0 src

/-- Model of `fs_reset`: resets the path and sets result IDLE, ptr NULL,
size 0.  The buffer contents are not touched. -/
def fs_reset (channel : FsChannelState) : FsChannelState :=
  { channel with
    path := fs_path_reset
    result := FSResult.idle
    ptrIsBuf := false
    size := 0 }

/-- Model of `fs_load_base64` (fs.c lines 189-204): resets the channel, sets
the path from `name`, then decodes; on success sets SUCCESS and points `ptr`
at `buf`, on failure sets FAILED.  Returns the decode result. -/
def fs_load_base64 (channel : FsChannelState) (name payload : List Nat) :
    Bool × FsChannelState :=
  let channel := fs_reset channel
  let channel := { channel with path := fs_path_printf channel.path name }
  match fs_base64_decode channel payload with
  | (true, c) => (true, { c with result := FSResult.success, ptrIsBuf := true })
  | (false, c) => (false, { c with result := FSResult.failed })

/-- Model of `fs_fetch_callback` (fs.c lines 206-222): on a fetched response
the engine has filled `buf` with `data` (the request's buffer is
`channel->buf` with size FS_MAX_SIZE), the callback sets SUCCESS, `ptr`,
`size`, and zero-terminates `buf[size]`; on a failed response it sets FAILED;
otherwise the channel is unchanged. -/
def fs_fetch_callback (channel : FsChannelState) (fetched failed : Bool)
    (data : List Nat) : FsChannelState :=
  if fetched then
    let ch : FsChannelState :=
      { channel with
        result := FSResult.success
        ptrIsBuf := true
        size := data.length
        buf := fun i => if i < data.length then data.getD i 0 else channel.buf i }
    { ch with buf := bufWrite ch.buf ch.size 0 }
  else if failed then { channel with result := FSResult.failed }
  else channel

/-- Model of `fs_load_file_async` (fs.c lines 243-257): resets the channel,
sets the path, sets PENDING, and submits the request to the fetch engine
(the submission itself does not change channel state). -/
def fs_load_file_async (channel : FsChannelState) (path : List Nat) :
    FsChannelState :=
  let channel := fs_reset channel
  let channel := { channel with path := fs_path_printf channel.path path }
  { channel with result := FSResult.pending }

/-- Model of `fs_data` (fs.c lines 297-307): the returned byte range is
`{ ptr, size }` on SUCCESS (in every reachable SUCCESS state `ptr` points at
`buf`, so the range bytes are `buf[0..size]`) and the empty range otherwise. -/
def fs_data (channel : FsChannelState) : List Nat :=
  if channel.result = FSResult.success then
    (List.range channel.size).map channel.buf
  else []

/-- Model of `fs_result`. -/
def fs_result (channel : FsChannelState) : FSResult :=
  channel.result

/-- Decimal digit bytes of a natural number, for the `%zu` format directive. -/
def natDecimalBytes (n : Nat) : List Nat :=
  (Nat.toDigits 10 n).map Char.toNat

/-- Model of `fs_make_snapshot_path` (fs.c lines 309-313): formats
`"%s/chips_%s_snapshot_%zu"` with dir, system_name, snapshot_index into a
fresh zero-initialized path. -/
def fs_make_snapshot_path (dir system_name : List Nat) (snapshot_index : Nat) :
    FsPath :=
  fs_path_printf { cstr := [], clamped := false }
    (dir ++ [47, 99, 104, 105, 112, 115, 95] ++ system_name ++
      [95, 115, 110, 97, 112, 115, 104, 111, 116, 95] ++
      natDecimalBytes snapshot_index)

/-- Byte list of the literal directory "/tmp" used by the desktop backend. -/
def fs_tmp_dir : List Nat := [47, 116, 109, 112]

/-- Record of a performed file write (path and bytes), so that theorems can
state that no write happened. -/
structure FsWriteEffect where
  path : List Nat
  bytes : List Nat
  deriving DecidableEq, Repr

/-- Record of a scheduled fetch request, so that theorems can state that
nothing was scheduled. -/
structure FsFetchRequest where
  path : List Nat
  deriving DecidableEq, Repr

/-- Model of the desktop (Apple/Linux) `fs_save_snapshot` (fs.c lines
542-557): `assert(system_name && data.ptr && data.size > 0)` is a
precondition (violation yields `none`); then the snapshot path is built, a
clamped path returns false with no I/O, otherwise the file is opened
(`fopen_ok` says whether `fopen` succeeds) and the bytes written. -/
def fs_save_snapshot (system_name : List Nat) (snapshot_index : Nat)
    (data : ChipsRange) (fopen_ok : Bool) :
    Option (Bool × Option FsWriteEffect) :=
  if data.ptrIsNull ∨ data.bytes.length = 0 then none
  else
    let path := fs_make_snapshot_path fs_tmp_dir system_name snapshot_index
    if path.clamped then some (false, none)
    else if fopen_ok then some (true, some { path := path.cstr, bytes := data.bytes })
    else some (false, none)

/-- Model of the desktop (Apple/Linux) `fs_load_snapshot_async` (fs.c lines
559-579): builds the snapshot path; a clamped path returns false without
scheduling anything, otherwise a fetch request for the path is submitted and
true returned. -/
def fs_load_snapshot_async (system_name : List Nat) (snapshot_index : Nat) :
    Bool × Option FsFetchRequest :=
  let path := fs_make_snapshot_path fs_tmp_dir system_name snapshot_index
  if path.clamped then (false, none)
  else (true, some { path := path.cstr })

/-- Modelled from the spec: the standard base64 encoding over the alphabet
`fs_base64_table` (an encoder is not part of fs.c; the spec's round-trip
property "decode(encode(bytes)) == bytes" refers to the standard encoding:
each group of 3 bytes becomes 4 alphabet symbols, a trailing group of 1 or 2
bytes is completed with 2 or 1 `'='` padding characters). -/
def fs_base64_char (v : Nat) : Nat :=
  fs_base64_table.getD v 0

/-- Modelled from the spec: standard base64 encoding of a byte sequence
(see `fs_base64_char`). -/
def fs_base64_encode : List Nat → List Nat
  | b0 :: b1 :: b2 :: rest =>
      fs_base64_char (b0 >>> 2) ::
      fs_base64_char (((b0 &&& 3) <<< 4) ||| (b1 >>> 4)) ::
      fs_base64_char (((b1 &&& 15) <<< 2) ||| (b2 >>> 6)) ::
      fs_base64_char (b2 &&& 63) :: fs_base64_encode rest
  | [b0, b1] =>
      [fs_base64_char (b0 >>> 2),
       fs_base64_char (((b0 &&& 3) <<< 4) ||| (b1 >>> 4)),
       fs_base64_char ((b1 &&& 15) <<< 2), 61]
  | [b0] =>
      [fs_base64_char (b0 >>> 2), fs_base64_char ((b0 &&& 3) <<< 4), 61, 61]
  | [] => []

/-- Value of the C expression `(int)src[i]` in `fs_base64_decode` on a
platform where `char` is signed (e.g. x86 Linux): a byte with the high bit
set is read as a negative value. -/
def fs_signed_char_index (b : Nat) : Int :=
  if b < 128 then (b : Int) else (b : Int) - 256

/-- Public operations that mutate one channel, for stating state-machine
invariants: `fs_reset`, `fs_load_base64`, `fs_load_file_async`, and
completion of an async fetch delivered by `fs_dowork` via
`fs_fetch_callback`. -/
inductive FsOp where
  | reset
  | loadBase64 (name payload : List Nat)
  | loadFileAsync (path : List Nat)
  | fetchCompleted (fetched failed : Bool) (data : List Nat)

/-- Engine contract for an operation: a fetch completion can deliver at most
FS_MAX_SIZE bytes, because the request's buffer is `{ channel->buf,
FS_MAX_SIZE }` (also asserted by `fs_fetch_callback`). -/
def fs_op_ok : FsOp → Prop
  | FsOp.fetchCompleted _ _ data => data.length ≤ FS_MAX_SIZE
  | _ => True

/-- Application of one public operation to a channel. -/
def fs_step (channel : FsChannelState) : FsOp → FsChannelState
  | FsOp.reset => fs_reset channel
  | FsOp.loadBase64 name payload => (fs_load_base64 channel name payload).2
  | FsOp.loadFileAsync path => fs_load_file_async channel path
  | FsOp.fetchCompleted fetched failed data =>
      fs_fetch_callback channel fetched failed data

/-- Application of a sequence of public operations to a channel. -/
def fs_run (channel : FsChannelState) : List FsOp → FsChannelState
  | [] => channel
  | op :: ops => fs_run (fs_step channel op) ops

/-- Observable equality of two channel states: every query API
(`fs_result`, `fs_success`, `fs_failed`, `fs_pending`, `fs_data`,
`fs_filename`, `fs_ext`) returns the same on both.  The buffer only has to
agree below `size`, the range `fs_data` can expose. -/
def fs_obs_eq (c₁ c₂ : FsChannelState) : Prop :=
  c₁.path = c₂.path ∧ c₁.result = c₂.result ∧ c₁.ptrIsBuf = c₂.ptrIsBuf ∧
    c₁.size = c₂.size ∧ ∀ i < c₁.size, c₁.buf i = c₂.buf i

/-- Combined effect on the channel of the three buffer stores of one decode
block (`channel->buf[channel->size++] = ...` three times). -/
def quadWrite (ch : FsChannelState) (t0 t1 t2 t3 : Nat) : FsChannelState :=
  { ch with
    buf := bufWrite (bufWrite (bufWrite ch.buf ch.size
               (((t0 <<< 2) ||| (t1 >>> 4)) % 256))
             (ch.size + 1) (((t1 <<< 4) ||| (t2 >>> 2)) % 256))
             (ch.size + 2) (((t2 <<< 6) ||| t3) % 256)
    size := ch.size + 3 }

theorem fs_base64_dtable_char : ∀ v < 64, fs_base64_dtable (fs_base64_char v) = v := by
  decide

theorem fs_base64_dtable_char_ne : ∀ v < 64, fs_base64_dtable (fs_base64_char v) ≠ 0x80 := by
  decide

theorem fs_base64_char_ne_61 : ∀ v < 64, fs_base64_char v ≠ 61 := by
  decide

theorem fs_base64_dtable_61 : fs_base64_dtable 61 = 0 := by
  decide

theorem fs_base64_dtable_61_ne : fs_base64_dtable 61 ≠ 0x80 := by
  decide

theorem bit_out0 : ∀ b0 < 256, ∀ x < 16,
    (((b0 >>> 2) <<< 2) ||| ((((b0 &&& 3) <<< 4) ||| x) >>> 4)) % 256 = b0 := by
  decide

theorem bit_out1 : ∀ b1 < 256, ∀ a < 4, ∀ c < 4,
    ((((a <<< 4) ||| (b1 >>> 4)) <<< 4) |||
      ((((b1 &&& 15) <<< 2) ||| c) >>> 2)) % 256 = b1 := by
  decide

theorem bit_out2 : ∀ b2 < 256, ∀ a < 16,
    ((((a <<< 2) ||| (b2 >>> 6)) <<< 6) ||| (b2 &&& 63)) % 256 = b2 := by
  decide

theorem bit_pad_out1 : ∀ b0 < 256, ((((b0 &&& 3) <<< 4) <<< 4) ||| (0 >>> 2)) % 256 = 0 := by
  decide

theorem lt64_shift2 : ∀ b < 256, b >>> 2 < 64 := by decide

theorem lt16_shift4 : ∀ b < 256, b >>> 4 < 16 := by decide

theorem lt4_shift6 : ∀ b < 256, b >>> 6 < 4 := by decide

theorem lt4_and3 : ∀ b < 256, b &&& 3 < 4 := by decide

theorem lt16_and15 : ∀ b < 256, b &&& 15 < 16 := by decide

theorem lt64_and63 : ∀ b < 256, b &&& 63 < 64 := by decide

theorem lt64_v1 : ∀ a < 4, ∀ x < 16, ((a <<< 4) ||| x) < 64 := by decide

theorem lt64_v2 : ∀ a < 16, ∀ c < 4, ((a <<< 2) ||| c) < 64 := by decide

theorem lt64_shl4 : ∀ a < 4, a <<< 4 < 64 := by decide

theorem lt64_shl2 : ∀ a < 16, a <<< 2 < 64 := by decide

theorem loop_cons_invalid (ch : FsChannelState) (blk : List Nat) (pad c : Nat)
    (rest : List Nat) (h : fs_base64_dtable c = 0x80) :
    fs_base64_decode_loop ch blk pad (c :: rest) =
      fs_base64_decode_loop ch blk pad rest := by
  simp [fs_base64_decode_loop, h]

theorem loop_quad (ch : FsChannelState) (pad s0 s1 s2 s3 : Nat) (rest : List Nat)
    (h0 : fs_base64_dtable s0 ≠ 0x80) (h1 : fs_base64_dtable s1 ≠ 0x80)
    (h2 : fs_base64_dtable s2 ≠ 0x80) (h3 : fs_base64_dtable s3 ≠ 0x80) :
    fs_base64_decode_loop ch [] pad (s0 :: s1 :: s2 :: s3 :: rest) =
      (let p4 := (if s3 = 61 then
          (if s2 = 61 then
           (if s1 = 61 then
            (if s0 = 61 then pad + 1 else pad) + 1 else
            (if s0 = 61 then pad + 1 else pad)) + 1 else
           (if s1 = 61 then
            (if s0 = 61 then pad + 1 else pad) + 1 else
            (if s0 = 61 then pad + 1 else pad))) + 1 else
          (if s2 = 61 then
           (if s1 = 61 then
            (if s0 = 61 then pad + 1 else pad) + 1 else
            (if s0 = 61 then pad + 1 else pad)) + 1 else
           (if s1 = 61 then
            (if s0 = 61 then pad + 1 else pad) + 1 else
            (if s0 = 61 then pad + 1 else pad))))
       let ch3 := quadWrite ch (fs_base64_dtable s0) (fs_base64_dtable s1)
         (fs_base64_dtable s2) (fs_base64_dtable s3)
       if 0 < p4 then
         if p4 ≤ 2 then (true, { ch3 with size := ch3.size - p4 })
         else (false, ch3)
       else fs_base64_decode_loop ch3 [] p4 rest) := by
  simp [fs_base64_decode_loop, h0, h1, h2, h3, quadWrite]

theorem loop_quad_nopad (ch : FsChannelState) (s0 s1 s2 s3 : Nat) (rest : List Nat)
    (h0 : fs_base64_dtable s0 ≠ 0x80) (h1 : fs_base64_dtable s1 ≠ 0x80)
    (h2 : fs_base64_dtable s2 ≠ 0x80) (h3 : fs_base64_dtable s3 ≠ 0x80)
    (n0 : s0 ≠ 61) (n1 : s1 ≠ 61) (n2 : s2 ≠ 61) (n3 : s3 ≠ 61) :
    fs_base64_decode_loop ch [] 0 (s0 :: s1 :: s2 :: s3 :: rest) =
      fs_base64_decode_loop
        (quadWrite ch (fs_base64_dtable s0) (fs_base64_dtable s1)
          (fs_base64_dtable s2) (fs_base64_dtable s3)) [] 0 rest := by
  rw [loop_quad ch 0 s0 s1 s2 s3 rest h0 h1 h2 h3]
  simp [n0, n1, n2, n3]

theorem loop_quad_pad2 (ch : FsChannelState) (s0 s1 : Nat) (rest : List Nat)
    (h0 : fs_base64_dtable s0 ≠ 0x80) (h1 : fs_base64_dtable s1 ≠ 0x80)
    (n0 : s0 ≠ 61) (n1 : s1 ≠ 61) :
    fs_base64_decode_loop ch [] 0 (s0 :: s1 :: 61 :: 61 :: rest) =
      (true, { quadWrite ch (fs_base64_dtable s0) (fs_base64_dtable s1) 0 0 with
               size := ch.size + 1 }) := by
  rw [loop_quad ch 0 s0 s1 61 61 rest h0 h1 fs_base64_dtable_61_ne fs_base64_dtable_61_ne]
  simp only [n0, n1, if_neg, if_pos, fs_base64_dtable_61, quadWrite, if_true, if_false]
  norm_num; omega

theorem loop_quad_pad1 (ch : FsChannelState) (s0 s1 s2 : Nat) (rest : List Nat)
    (h0 : fs_base64_dtable s0 ≠ 0x80) (h1 : fs_base64_dtable s1 ≠ 0x80)
    (h2 : fs_base64_dtable s2 ≠ 0x80)
    (n0 : s0 ≠ 61) (n1 : s1 ≠ 61) (n2 : s2 ≠ 61) :
    fs_base64_decode_loop ch [] 0 (s0 :: s1 :: s2 :: 61 :: rest) =
      (true, { quadWrite ch (fs_base64_dtable s0) (fs_base64_dtable s1)
                 (fs_base64_dtable s2) 0 with
               size := ch.size + 2 }) := by
  rw [loop_quad ch 0 s0 s1 s2 61 rest h0 h1 h2 fs_base64_dtable_61_ne]
  simp only [n0, n1, n2, if_neg, if_pos, fs_base64_dtable_61, quadWrite, if_true, if_false]
  norm_num

theorem quadWrite_size (ch : FsChannelState) (t0 t1 t2 t3 : Nat) :
    (quadWrite ch t0 t1 t2 t3).size = ch.size + 3 := rfl

theorem quadWrite_buf_lt (ch : FsChannelState) (t0 t1 t2 t3 : Nat) {j : Nat}
    (hj : j < ch.size) : (quadWrite ch t0 t1 t2 t3).buf j = ch.buf j := by
  simp only [quadWrite, bufWrite]
  rw [if_neg (by omega), if_neg (by omega), if_neg (by omega)]

theorem quadWrite_buf0 (ch : FsChannelState) (t0 t1 t2 t3 : Nat) :
    (quadWrite ch t0 t1 t2 t3).buf ch.size = ((t0 <<< 2) ||| (t1 >>> 4)) % 256 := by
  simp only [quadWrite, bufWrite]
  rw [if_neg (by omega), if_neg (by omega)]
  simp

theorem quadWrite_buf1 (ch : FsChannelState) (t0 t1 t2 t3 : Nat) :
    (quadWrite ch t0 t1 t2 t3).buf (ch.size + 1) =
      ((t1 <<< 4) ||| (t2 >>> 2)) % 256 := by
  simp only [quadWrite, bufWrite]
  rw [if_neg (by omega)]
  simp

theorem quadWrite_buf2 (ch : FsChannelState) (t0 t1 t2 t3 : Nat) :
    (quadWrite ch t0 t1 t2 t3).buf (ch.size + 2) =
      ((t2 <<< 6) ||| t3) % 256 := by
  simp only [quadWrite, bufWrite]
  simp

/-- Postcondition of running the decode loop on the standard encoding of
`bytes` starting from channel `ch`: the loop succeeds, advances `size` by
`bytes.length`, leaves path/result/ptr and the buffer below `ch.size`
untouched, and stores exactly `bytes` at positions `ch.size ..`. -/
def LoopEncodeSpec (ch : FsChannelState) (bytes : List Nat)
    (r : Bool × FsChannelState) : Prop :=
  r.1 = true ∧ r.2.size = ch.size + bytes.length ∧ r.2.path = ch.path ∧
    r.2.result = ch.result ∧ r.2.ptrIsBuf = ch.ptrIsBuf ∧
    (∀ j < ch.size, r.2.buf j = ch.buf j) ∧
    (∀ i < bytes.length, r.2.buf (ch.size + i) = bytes.getD i 0)

theorem loop_encode : ∀ (bytes : List Nat), (∀ b ∈ bytes, b < 256) →
    ∀ ch : FsChannelState,
    LoopEncodeSpec ch bytes (fs_base64_decode_loop ch [] 0 (fs_base64_encode bytes))
  | [], _, ch => by
      unfold LoopEncodeSpec
      simp [fs_base64_encode, fs_base64_decode_loop]
  | [b0], hb, ch => by
      have hb0 : b0 < 256 := hb b0 (by simp)
      have l0 := lt64_shift2 b0 hb0
      have l1 := lt64_shl4 (b0 &&& 3) (lt4_and3 b0 hb0)
      simp only [fs_base64_encode]
      rw [loop_quad_pad2 ch _ _ _ (fs_base64_dtable_char_ne _ l0)
        (fs_base64_dtable_char_ne _ l1) (fs_base64_char_ne_61 _ l0)
        (fs_base64_char_ne_61 _ l1),
        fs_base64_dtable_char _ l0, fs_base64_dtable_char _ l1]
      unfold LoopEncodeSpec
      refine ⟨rfl, by simp, rfl, rfl, rfl, ?_, ?_⟩
      · intro j hj
        exact quadWrite_buf_lt ch _ _ _ _ hj
      · intro i hi
        have : i = 0 := by simpa using hi
        subst this
        show (quadWrite ch (b0 >>> 2) ((b0 &&& 3) <<< 4) 0 0).buf (ch.size + 0) = b0
        rw [Nat.add_zero, quadWrite_buf0]
        simpa using bit_out0 b0 hb0 0 (by norm_num)
  | [b0, b1], hb, ch => by
      have hb0 : b0 < 256 := hb b0 (by simp)
      have hb1 : b1 < 256 := hb b1 (by simp)
      have l0 := lt64_shift2 b0 hb0
      have l1 := lt64_v1 (b0 &&& 3) (lt4_and3 b0 hb0) (b1 >>> 4) (lt16_shift4 b1 hb1)
      have l2 := lt64_shl2 (b1 &&& 15) (lt16_and15 b1 hb1)
      simp only [fs_base64_encode]
      rw [loop_quad_pad1 ch _ _ _ _ (fs_base64_dtable_char_ne _ l0)
        (fs_base64_dtable_char_ne _ l1) (fs_base64_dtable_char_ne _ l2)
        (fs_base64_char_ne_61 _ l0) (fs_base64_char_ne_61 _ l1)
        (fs_base64_char_ne_61 _ l2),
        fs_base64_dtable_char _ l0, fs_base64_dtable_char _ l1,
        fs_base64_dtable_char _ l2]
      unfold LoopEncodeSpec
      refine ⟨rfl, by simp, rfl, rfl, rfl, ?_, ?_⟩
      · intro j hj
        exact quadWrite_buf_lt ch _ _ _ _ hj
      · intro i hi
        have hi2 : i = 0 ∨ i = 1 := by simp at hi; omega
        rcases hi2 with rfl | rfl
        · show (quadWrite ch (b0 >>> 2) (((b0 &&& 3) <<< 4) ||| (b1 >>> 4))
            ((b1 &&& 15) <<< 2) 0).buf (ch.size + 0) = b0
          rw [Nat.add_zero, quadWrite_buf0]
          exact bit_out0 b0 hb0 (b1 >>> 4) (lt16_shift4 b1 hb1)
        · show (quadWrite ch (b0 >>> 2) (((b0 &&& 3) <<< 4) ||| (b1 >>> 4))
            ((b1 &&& 15) <<< 2) 0).buf (ch.size + 1) = b1
          rw [quadWrite_buf1]
          simpa using bit_out1 b1 hb1 (b0 &&& 3) (lt4_and3 b0 hb0) 0 (by norm_num)
  | b0 :: b1 :: b2 :: rest, hb, ch => by
      have hb0 : b0 < 256 := hb b0 (by simp)
      have hb1 : b1 < 256 := hb b1 (by simp)
      have hb2 : b2 < 256 := hb b2 (by simp)
      have hrest : ∀ b ∈ rest, b < 256 := fun b h => hb b (by simp [h])
      have l0 := lt64_shift2 b0 hb0
      have l1 := lt64_v1 (b0 &&& 3) (lt4_and3 b0 hb0) (b1 >>> 4) (lt16_shift4 b1 hb1)
      have l2 := lt64_v2 (b1 &&& 15) (lt16_and15 b1 hb1) (b2 >>> 6) (lt4_shift6 b2 hb2)
      have l3 := lt64_and63 b2 hb2
      show LoopEncodeSpec ch (b0 :: b1 :: b2 :: rest)
        (fs_base64_decode_loop ch [] 0
          (fs_base64_encode (b0 :: b1 :: b2 :: rest)))
      simp only [fs_base64_encode]
      rw [loop_quad_nopad ch _ _ _ _ _ (fs_base64_dtable_char_ne _ l0)
        (fs_base64_dtable_char_ne _ l1) (fs_base64_dtable_char_ne _ l2)
        (fs_base64_dtable_char_ne _ l3) (fs_base64_char_ne_61 _ l0)
        (fs_base64_char_ne_61 _ l1) (fs_base64_char_ne_61 _ l2)
        (fs_base64_char_ne_61 _ l3),
        fs_base64_dtable_char _ l0, fs_base64_dtable_char _ l1,
        fs_base64_dtable_char _ l2, fs_base64_dtable_char _ l3]
      have ih := loop_encode rest hrest
        (quadWrite ch (b0 >>> 2) (((b0 &&& 3) <<< 4) ||| (b1 >>> 4))
          (((b1 &&& 15) <<< 2) ||| (b2 >>> 6)) (b2 &&& 63))
      obtain ⟨hfst, hsize, hpath, hres, hptr, hpres, hcont⟩ := ih
      unfold LoopEncodeSpec
      rw [quadWrite_size] at hsize hpres hcont
      refine ⟨hfst, by rw [hsize]; simp; omega, hpath, hres, hptr, ?_, ?_⟩
      · intro j hj
        rw [hpres j (by omega)]
        exact quadWrite_buf_lt ch _ _ _ _ hj
      · intro i hi
        rcases i with _ | _ | _ | n
        · rw [Nat.add_zero, hpres ch.size (by omega), quadWrite_buf0]
          exact bit_out0 b0 hb0 (b1 >>> 4) (lt16_shift4 b1 hb1)
        · rw [hpres (ch.size + 1) (by omega), quadWrite_buf1]
          exact bit_out1 b1 hb1 (b0 &&& 3) (lt4_and3 b0 hb0) (b2 >>> 6)
            (lt4_shift6 b2 hb2)
        · rw [hpres (ch.size + 2) (by omega), quadWrite_buf2]
          exact bit_out2 b2 hb2 (b1 &&& 15) (lt16_and15 b1 hb1)
        · have hn : n < rest.length := by simp at hi; omega
          have hidx : ch.size + (n + 3) = ch.size + 3 + n := by omega
          rw [hidx, hcont n hn]
          simp [List.getD_cons_succ]

theorem encode_valid : ∀ (bytes : List Nat), (∀ b ∈ bytes, b < 256) →
    ∀ c ∈ fs_base64_encode bytes, fs_base64_dtable c ≠ 0x80
  | [], _, c, hc => by simp [fs_base64_encode] at hc
  | [b0], hb, c, hc => by
      have hb0 : b0 < 256 := hb b0 (by simp)
      simp only [fs_base64_encode, List.mem_cons, List.not_mem_nil, or_false] at hc
      rcases hc with rfl | rfl | rfl | rfl
      · exact fs_base64_dtable_char_ne _ (lt64_shift2 b0 hb0)
      · exact fs_base64_dtable_char_ne _ (lt64_shl4 (b0 &&& 3) (lt4_and3 b0 hb0))
      · exact fs_base64_dtable_61_ne
      · exact fs_base64_dtable_61_ne
  | [b0, b1], hb, c, hc => by
      have hb0 : b0 < 256 := hb b0 (by simp)
      have hb1 : b1 < 256 := hb b1 (by simp)
      simp only [fs_base64_encode, List.mem_cons, List.not_mem_nil, or_false] at hc
      rcases hc with rfl | rfl | rfl | rfl
      · exact fs_base64_dtable_char_ne _ (lt64_shift2 b0 hb0)
      · exact fs_base64_dtable_char_ne _
          (lt64_v1 (b0 &&& 3) (lt4_and3 b0 hb0) (b1 >>> 4) (lt16_shift4 b1 hb1))
      · exact fs_base64_dtable_char_ne _
          (lt64_shl2 (b1 &&& 15) (lt16_and15 b1 hb1))
      · exact fs_base64_dtable_61_ne
  | b0 :: b1 :: b2 :: rest, hb, c, hc => by
      have hb0 : b0 < 256 := hb b0 (by simp)
      have hb1 : b1 < 256 := hb b1 (by simp)
      have hb2 : b2 < 256 := hb b2 (by simp)
      have hrest : ∀ b ∈ rest, b < 256 := fun b h => hb b (by simp [h])
      simp only [fs_base64_encode, List.mem_cons] at hc
      rcases hc with rfl | rfl | rfl | rfl | hc
      · exact fs_base64_dtable_char_ne _ (lt64_shift2 b0 hb0)
      · exact fs_base64_dtable_char_ne _
          (lt64_v1 (b0 &&& 3) (lt4_and3 b0 hb0) (b1 >>> 4) (lt16_shift4 b1 hb1))
      · exact fs_base64_dtable_char_ne _
          (lt64_v2 (b1 &&& 15) (lt16_and15 b1 hb1) (b2 >>> 6) (lt4_shift6 b2 hb2))
      · exact fs_base64_dtable_char_ne _ (lt64_and63 b2 hb2)
      · exact encode_valid rest hrest c hc

theorem encode_length : ∀ (bytes : List Nat),
    (fs_base64_encode bytes).length = 4 * ((bytes.length + 2) / 3)
  | [] => by simp [fs_base64_encode]
  | [_] => by simp [fs_base64_encode]
  | [_, _] => by simp [fs_base64_encode]
  | _ :: _ :: _ :: rest => by
      have ih := encode_length rest
      simp only [fs_base64_encode, List.length_cons, ih]
      omega

theorem count_encode (bytes : List Nat) (hb : ∀ b ∈ bytes, b < 256) :
    fs_base64_count (fs_base64_encode bytes) = 4 * ((bytes.length + 2) / 3) := by
  unfold fs_base64_count
  rw [List.filter_eq_self.mpr, encode_length]
  intro a ha
  simpa using encode_valid bytes hb a ha

theorem and_three_eq_mod_four (n : Nat) : n &&& 3 = n % 4 := by
  simpa using Nat.and_pow_two_sub_one_eq_mod n 2

theorem decode_encode_eq (ch : FsChannelState) (bytes : List Nat) (hne : bytes ≠ [])
    (hb : ∀ b ∈ bytes, b < 256)
    (hfit : 3 * ((bytes.length + 2) / 3) ≤ FS_MAX_SIZE) :
    fs_base64_decode ch (fs_base64_encode bytes) =
      fs_base64_decode_loop ch [] 0 (fs_base64_encode bytes) := by
  have hlen : bytes.length ≠ 0 := fun h => hne (List.eq_nil_of_length_eq_zero h)
  have hq : 1 ≤ (bytes.length + 2) / 3 := by omega
  have hcount := count_encode bytes hb
  have hc1 : ¬(fs_base64_count (fs_base64_encode bytes) = 0 ∨
      fs_base64_count (fs_base64_encode bytes) &&& 3 ≠ 0) := by
    push_neg
    constructor
    · rw [hcount]; omega
    · rw [and_three_eq_mod_four, hcount]; omega
  have hc2 : ¬(FS_MAX_SIZE + 1 ≤
      (fs_base64_count (fs_base64_encode bytes) / 4) * 3) := by
    rw [hcount]
    have h44 : 4 * ((bytes.length + 2) / 3) / 4 = (bytes.length + 2) / 3 := by omega
    rw [h44]
    omega
  simp only [fs_base64_decode]
  rw [if_neg hc1, if_neg hc2]

theorem load_base64_eq (ch : FsChannelState) (name payload : List Nat) :
    fs_load_base64 ch name payload =
      (if (fs_base64_decode
            { fs_reset ch with path := fs_path_printf (fs_reset ch).path name }
            payload).1
       then (true, { (fs_base64_decode
            { fs_reset ch with path := fs_path_printf (fs_reset ch).path name }
            payload).2 with result := FSResult.success, ptrIsBuf := true })
       else (false, { (fs_base64_decode
            { fs_reset ch with path := fs_path_printf (fs_reset ch).path name }
            payload).2 with result := FSResult.failed })) := by
  simp only [fs_load_base64]
  rcases h : fs_base64_decode
    { fs_reset ch with path := fs_path_printf (fs_reset ch).path name } payload
    with ⟨b, c⟩
  cases b <;> simp

/-- C1: for every nonempty byte sequence whose standard base64 encoding has a
valid-symbol count that is a positive multiple of 4 (which holds for the
standard encoding of any nonempty sequence) and whose decoded size
`3 * ceil(len / 3)` fits the channel buffer, `fs_load_base64` on a channel
with that encoding returns true, sets the channel result to SUCCESS, and
`fs_data` returns exactly the original bytes. -/
theorem fs_load_base64_roundtrip (ch : FsChannelState) (name bytes : List Nat)
    (hne : bytes ≠ []) (hb : ∀ b ∈ bytes, b < 256)
    (hfit : 3 * ((bytes.length + 2) / 3) ≤ FS_MAX_SIZE) :
    (fs_load_base64 ch name (fs_base64_encode bytes)).1 = true ∧
    (fs_load_base64 ch name (fs_base64_encode bytes)).2.result = FSResult.success ∧
    fs_data (fs_load_base64 ch name (fs_base64_encode bytes)).2 = bytes := by
  rw [load_base64_eq]
  rw [decode_encode_eq _ bytes hne hb hfit]
  obtain ⟨hfst, hsize, -, -, -, -, hcont⟩ := loop_encode bytes hb
    { fs_reset ch with path := fs_path_printf (fs_reset ch).path name }
  rw [hfst]
  simp only [if_true]
  refine ⟨trivial, trivial, ?_⟩
  have hsz0 : ({ fs_reset ch with
      path := fs_path_printf (fs_reset ch).path name } : FsChannelState).size = 0 := rfl
  rw [hsz0] at hsize hcont
  simp only [fs_data, if_pos rfl]
  show (List.range (fs_base64_decode_loop _ [] 0 (fs_base64_encode bytes)).2.size).map
      (fs_base64_decode_loop _ [] 0 (fs_base64_encode bytes)).2.buf = bytes
  rw [hsize]
  refine List.ext_getElem (by simp) ?_
  intro i hi₁ hi₂
  have hi : i < bytes.length := by simpa using hi₂
  have := hcont i hi
  rw [Nat.zero_add] at this
  simp only [List.getElem_map, List.getElem_range]
  rw [this, List.getD_eq_getElem bytes 0 hi]

/-- Witness for C1: the scenario `fs_load_base64(chn, "demo.bin", "aGVsbG8=")`
(name bytes "demo.bin", payload the standard encoding of "hello", which is
"aGVsbG8=") succeeds with result SUCCESS and data bytes 'h' 'e' 'l' 'l' 'o'. -/
theorem fs_load_base64_roundtrip_witness :
    fs_base64_encode [104, 101, 108, 108, 111] = [97, 71, 86, 115, 98, 71, 56, 61] ∧
    (fs_load_base64 fs_init_channel [100, 101, 109, 111, 46, 98, 105, 110]
      (fs_base64_encode [104, 101, 108, 108, 111])).1 = true ∧
    (fs_load_base64 fs_init_channel [100, 101, 109, 111, 46, 98, 105, 110]
      (fs_base64_encode [104, 101, 108, 108, 111])).2.result = FSResult.success ∧
    fs_data (fs_load_base64 fs_init_channel [100, 101, 109, 111, 46, 98, 105, 110]
      (fs_base64_encode [104, 101, 108, 108, 111])).2 = [104, 101, 108, 108, 111] :=
  ⟨by decide,
   (fs_load_base64_roundtrip fs_init_channel [100, 101, 109, 111, 46, 98, 105, 110]
     [104, 101, 108, 108, 111] (by decide) (by decide) (by decide)).1,
   (fs_load_base64_roundtrip fs_init_channel [100, 101, 109, 111, 46, 98, 105, 110]
     [104, 101, 108, 108, 111] (by decide) (by decide) (by decide)).2.1,
   (fs_load_base64_roundtrip fs_init_channel [100, 101, 109, 111, 46, 98, 105, 110]
     [104, 101, 108, 108, 111] (by decide) (by decide) (by decide)).2.2⟩

theorem decode_invalid_count (ch : FsChannelState) (src : List Nat)
    (h : fs_base64_count src = 0 ∨ fs_base64_count src &&& 3 ≠ 0) :
    fs_base64_decode ch src = (false, ch) := by
  simp only [fs_base64_decode]
  rw [if_pos h]

/-- C2: for every input string whose count of valid base64 symbols is 0 or
not a multiple of 4, `fs_load_base64` returns false, the channel result is
FAILED, zero bytes are written into the channel buffer (the buffer is
untouched and the size stays 0), and `fs_data` returns an empty range. -/
theorem fs_load_base64_invalid_count (ch : FsChannelState) (name src : List Nat)
    (h : fs_base64_count src = 0 ∨ fs_base64_count src % 4 ≠ 0) :
    (fs_load_base64 ch name src).1 = false ∧
    (fs_load_base64 ch name src).2.result = FSResult.failed ∧
    (fs_load_base64 ch name src).2.size = 0 ∧
    (fs_load_base64 ch name src).2.buf = ch.buf ∧
    fs_data (fs_load_base64 ch name src).2 = [] := by
  have hcond : fs_base64_count src = 0 ∨ fs_base64_count src &&& 3 ≠ 0 := by
    rwa [and_three_eq_mod_four]
  rw [load_base64_eq, decode_invalid_count _ src hcond]
  refine ⟨by simp, by simp, rfl, rfl, by simp [fs_data]⟩

/-- Witness for C2: the scenario `fs_load_base64(chn, "bad.bin", "abc")`
(payload length 3, all three symbols valid, so the count is 3, not a
multiple of 4) fails with FAILED, untouched zero-size buffer and empty
`fs_data`. -/
theorem fs_load_base64_invalid_count_witness :
    (fs_base64_count [97, 98, 99] = 0 ∨ fs_base64_count [97, 98, 99] % 4 ≠ 0) ∧
    ((fs_load_base64 fs_init_channel [98, 97, 100, 46, 98, 105, 110]
        [97, 98, 99]).1 = false ∧
      (fs_load_base64 fs_init_channel [98, 97, 100, 46, 98, 105, 110]
        [97, 98, 99]).2.result = FSResult.failed ∧
      (fs_load_base64 fs_init_channel [98, 97, 100, 46, 98, 105, 110]
        [97, 98, 99]).2.size = 0 ∧
      (fs_load_base64 fs_init_channel [98, 97, 100, 46, 98, 105, 110]
        [97, 98, 99]).2.buf = fs_init_channel.buf ∧
      fs_data (fs_load_base64 fs_init_channel [98, 97, 100, 46, 98, 105, 110]
        [97, 98, 99]).2 = []) :=
  ⟨by decide,
   fs_load_base64_invalid_count fs_init_channel [98, 97, 100, 46, 98, 105, 110]
     [97, 98, 99] (by decide)⟩

/-- C4: for every input whose expected decoded output length
`(count / 4) * 3` exceeds the destination buffer's remaining capacity
(FS_MAX_SIZE, one byte of `sizeof(buf) = FS_MAX_SIZE + 1` being reserved),
`fs_base64_decode` fails before writing any bytes: it returns false with the
channel state (buffer and size included) completely unchanged. -/
theorem fs_base64_decode_capacity (ch : FsChannelState) (src : List Nat)
    (h : FS_MAX_SIZE < (fs_base64_count src / 4) * 3) :
    fs_base64_decode ch src = (false, ch) := by
  simp only [fs_base64_decode]
  split
  · rfl
  · rw [if_pos (by omega)]

theorem count_replicate_A (n : Nat) :
    fs_base64_count (List.replicate n 65) = n := by
  unfold fs_base64_count
  rw [List.filter_replicate]
  simp [(by decide : fs_base64_dtable 65 = 0)]

/-- Witness for C4: an input of 2764000 'A' characters has expected output
length 2073000 which exceeds FS_MAX_SIZE = 2072576, so the decode fails with
the channel unchanged. -/
theorem fs_base64_decode_capacity_witness :
    FS_MAX_SIZE < (fs_base64_count (List.replicate 2764000 65) / 4) * 3 ∧
    fs_base64_decode fs_init_channel (List.replicate 2764000 65) =
      (false, fs_init_channel) := by
  have h : FS_MAX_SIZE < (fs_base64_count (List.replicate 2764000 65) / 4) * 3 := by
    rw [count_replicate_A]
    norm_num [FS_MAX_SIZE]
  exact ⟨h, fs_base64_decode_capacity fs_init_channel _ h⟩

/-- C9: `fs_reset` is idempotent: resetting twice yields exactly the same
channel state as resetting once, namely result IDLE, empty path with the
clamped flag cleared, NULL data pointer and zero length. -/
theorem fs_reset_idempotent (ch : FsChannelState) :
    fs_reset (fs_reset ch) = fs_reset ch ∧
    (fs_reset ch).result = FSResult.idle ∧
    (fs_reset ch).path = { cstr := [], clamped := false } ∧
    (fs_reset ch).ptrIsBuf = false ∧
    (fs_reset ch).size = 0 :=
  ⟨rfl, rfl, rfl, rfl, rfl⟩

/-- C10 (refuted on signed-char platforms): the cast `(int)src[i]` applied to
the byte 0xFF yields the table index -1, not a value in 0..255, so the
256-entry reverse lookup table is accessed out of bounds for input bytes
outside 7-bit ASCII wherever `char` is signed. -/
theorem fs_signed_char_index_bug :
    fs_signed_char_index 255 = -1 ∧ fs_signed_char_index 255 < 0 := by
  decide

theorem obs_eq_shrink (c d : FsChannelState) (h : fs_obs_eq c d) (p : Nat) :
    fs_obs_eq { c with size := c.size - p } { d with size := d.size - p } := by
  obtain ⟨h1, h2, h3, h4, h5⟩ := h
  exact ⟨h1, h2, h3, by simp [h4], fun j hj => h5 j (by simp at hj; omega)⟩

theorem quadWrite_obs (c₁ c₂ : FsChannelState) (h : fs_obs_eq c₁ c₂)
    (t0 t1 t2 t3 : Nat) :
    fs_obs_eq (quadWrite c₁ t0 t1 t2 t3) (quadWrite c₂ t0 t1 t2 t3) := by
  obtain ⟨hp, hr, hptr, hs, hb⟩ := h
  refine ⟨hp, hr, hptr, by simp [quadWrite, hs], ?_⟩
  intro j hj
  rw [quadWrite_size] at hj
  have hcase : j < c₁.size ∨ j = c₁.size ∨ j = c₁.size + 1 ∨ j = c₁.size + 2 := by
    omega
  rcases hcase with hlt | rfl | rfl | rfl
  · rw [quadWrite_buf_lt _ _ _ _ _ hlt, quadWrite_buf_lt _ _ _ _ _ (by omega : j < c₂.size)]
    exact hb j hlt
  · rw [quadWrite_buf0, hs, quadWrite_buf0]
  · rw [quadWrite_buf1, hs, quadWrite_buf1]
  · rw [quadWrite_buf2, hs, quadWrite_buf2]

theorem loop_obs (src : List Nat) : ∀ (blk : List Nat) (pad : Nat)
    (c₁ c₂ : FsChannelState), fs_obs_eq c₁ c₂ →
    (fs_base64_decode_loop c₁ blk pad src).1 =
      (fs_base64_decode_loop c₂ blk pad src).1 ∧
    fs_obs_eq (fs_base64_decode_loop c₁ blk pad src).2
      (fs_base64_decode_loop c₂ blk pad src).2 := by
  induction src with
  | nil => exact fun blk pad c₁ c₂ h => ⟨rfl, h⟩
  | cons c rest ih =>
    intro blk pad c₁ c₂ h
    simp only [fs_base64_decode_loop]
    by_cases hc : fs_base64_dtable c = 0x80
    · rw [if_pos hc, if_pos hc]
      exact ih blk pad c₁ c₂ h
    · rw [if_neg hc, if_neg hc]
      by_cases hlen : (blk ++ [fs_base64_dtable c]).length = 4
      · rw [if_pos hlen, if_pos hlen]
        by_cases hp : 0 < (if c = 61 then pad + 1 else pad)
        · rw [if_pos hp, if_pos hp]
          by_cases hp2 : (if c = 61 then pad + 1 else pad) ≤ 2
          · rw [if_pos hp2, if_pos hp2]
            exact ⟨rfl, obs_eq_shrink _ _ (quadWrite_obs c₁ c₂ h _ _ _ _) _⟩
          · rw [if_neg hp2, if_neg hp2]
            exact ⟨rfl, quadWrite_obs c₁ c₂ h _ _ _ _⟩
        · rw [if_neg hp, if_neg hp]
          exact ih [] _ _ _ (quadWrite_obs c₁ c₂ h _ _ _ _)
      · rw [if_neg hlen, if_neg hlen]
        exact ih _ _ _ _ h

theorem decode_obs (c₁ c₂ : FsChannelState) (h : fs_obs_eq c₁ c₂)
    (src : List Nat) :
    (fs_base64_decode c₁ src).1 = (fs_base64_decode c₂ src).1 ∧
    fs_obs_eq (fs_base64_decode c₁ src).2 (fs_base64_decode c₂ src).2 := by
  simp only [fs_base64_decode]
  split_ifs
  · exact ⟨rfl, h⟩
  · exact ⟨rfl, h⟩
  · exact loop_obs src [] 0 c₁ c₂ h

/-- C6: starting a new load via `fs_load_base64` or `fs_load_file_async`
first resets the channel (path cleared, result IDLE, data pointer NULL,
length zero) before setting the new result, so the outcome is
observationally independent of the channel's prior state (PENDING, SUCCESS
or FAILED alike): no query API ever observes a mix of old and new results.
Loading is literally equal to loading after an explicit reset. -/
theorem fs_load_resets_first (c₁ c₂ : FsChannelState) (name payload path : List Nat) :
    (fs_load_base64 c₁ name payload).1 = (fs_load_base64 c₂ name payload).1 ∧
    fs_obs_eq (fs_load_base64 c₁ name payload).2 (fs_load_base64 c₂ name payload).2 ∧
    fs_obs_eq (fs_load_file_async c₁ path) (fs_load_file_async c₂ path) ∧
    fs_load_base64 c₁ name payload = fs_load_base64 (fs_reset c₁) name payload ∧
    fs_load_file_async c₁ path = fs_load_file_async (fs_reset c₁) path := by
  have h0 : fs_obs_eq
      { fs_reset c₁ with path := fs_path_printf (fs_reset c₁).path name }
      { fs_reset c₂ with path := fs_path_printf (fs_reset c₂).path name } :=
    ⟨rfl, rfl, rfl, rfl, fun i hi => absurd hi (by simp [fs_reset])⟩
  obtain ⟨hfst, hp, hr, hptr, hs, hb⟩ :=
    And.intro (decode_obs _ _ h0 payload).1 (decode_obs _ _ h0 payload).2
  refine ⟨?_, ?_, ?_, rfl, rfl⟩
  · rw [load_base64_eq, load_base64_eq, hfst]
    cases hcond : (fs_base64_decode
      { fs_reset c₂ with path := fs_path_printf (fs_reset c₂).path name }
      payload).1 <;> simp [hcond]
  · rw [load_base64_eq, load_base64_eq, hfst]
    cases hcond : (fs_base64_decode
      { fs_reset c₂ with path := fs_path_printf (fs_reset c₂).path name }
      payload).1 <;> simp only [hcond, if_true, if_false, Bool.false_eq_true]
    · exact ⟨hp, rfl, hptr, hs, hb⟩
    · exact ⟨hp, rfl, rfl, hs, hb⟩
  · exact ⟨rfl, rfl, rfl, rfl, fun i hi =>
      absurd hi (by simp [fs_load_file_async, fs_reset])⟩

theorem loop_filter (src : List Nat) : ∀ (blk : List Nat) (pad : Nat)
    (ch : FsChannelState),
    fs_base64_decode_loop ch blk pad src =
      fs_base64_decode_loop ch blk pad
        (src.filter (fun c => fs_base64_dtable c != 0x80)) := by
  induction src with
  | nil => intro blk pad ch; rfl
  | cons c rest ih =>
    intro blk pad ch
    rw [List.filter_cons]
    by_cases hc : fs_base64_dtable c = 0x80
    · rw [loop_cons_invalid ch blk pad c rest hc, if_neg (by simp [hc]), ih]
    · rw [if_pos (by simpa using hc)]
      simp only [fs_base64_decode_loop]
      rw [if_neg hc, if_neg hc]
      by_cases hlen : (blk ++ [fs_base64_dtable c]).length = 4
      · rw [if_pos hlen, if_pos hlen]
        by_cases hp : 0 < (if c = 61 then pad + 1 else pad)
        · rw [if_pos hp, if_pos hp]
        · rw [if_neg hp, if_neg hp]
          exact ih [] _ _
      · rw [if_neg hlen, if_neg hlen]
        exact ih _ _ _

theorem loop_pre : ∀ (pre : List Nat), pre.length % 4 = 0 →
    (∀ s ∈ pre, fs_base64_dtable s ≠ 0x80) → (∀ s ∈ pre, s ≠ 61) →
    ∀ (ch : FsChannelState) (tail : List Nat),
    ∃ ch' : FsChannelState,
      fs_base64_decode_loop ch [] 0 (pre ++ tail) =
        fs_base64_decode_loop ch' [] 0 tail
  | [], _, _, _, ch, _ => ⟨ch, rfl⟩
  | [_], h4, _, _, _, _ => by simp at h4
  | [_, _], h4, _, _, _, _ => by simp at h4
  | [_, _, _], h4, _, _, _, _ => by simp at h4
  | s0 :: s1 :: s2 :: s3 :: rec, h4, hv, hn, ch, tail => by
      have h4' : rec.length % 4 = 0 := by simp at h4; omega
      rw [List.cons_append, List.cons_append, List.cons_append, List.cons_append,
        loop_quad_nopad ch s0 s1 s2 s3 (rec ++ tail)
          (hv s0 (by simp)) (hv s1 (by simp)) (hv s2 (by simp)) (hv s3 (by simp))
          (hn s0 (by simp)) (hn s1 (by simp)) (hn s2 (by simp)) (hn s3 (by simp))]
      exact loop_pre rec h4' (fun s hs => hv s (by simp [hs]))
        (fun s hs => hn s (by simp [hs])) _ tail

theorem loop_quad_pad_fail (ch : FsChannelState) (s0 s1 s2 s3 : Nat)
    (rest : List Nat)
    (h0 : fs_base64_dtable s0 ≠ 0x80) (h1 : fs_base64_dtable s1 ≠ 0x80)
    (h2 : fs_base64_dtable s2 ≠ 0x80) (h3 : fs_base64_dtable s3 ≠ 0x80)
    (hpad : 3 ≤ (([s0, s1, s2, s3].filter (fun c => c == 61)).length)) :
    (fs_base64_decode_loop ch [] 0 (s0 :: s1 :: s2 :: s3 :: rest)).1 = false := by
  rw [loop_quad ch 0 s0 s1 s2 s3 rest h0 h1 h2 h3]
  by_cases e0 : s0 = 61 <;> by_cases e1 : s1 = 61 <;> by_cases e2 : s2 = 61 <;>
    by_cases e3 : s3 = 61 <;> simp [e0, e1, e2, e3] at hpad ⊢

theorem decode_bad_padding (c : FsChannelState) (src pre rest : List Nat)
    (s0 s1 s2 s3 : Nat)
    (hsplit : src.filter (fun c => fs_base64_dtable c != 0x80) =
      pre ++ s0 :: s1 :: s2 :: s3 :: rest)
    (hpre4 : pre.length % 4 = 0)
    (hpre61 : ∀ s ∈ pre, s ≠ 61)
    (hpad : 3 ≤ (([s0, s1, s2, s3].filter (fun c => c == 61)).length)) :
    (fs_base64_decode c src).1 = false := by
  have hvalid : ∀ s ∈ pre ++ s0 :: s1 :: s2 :: s3 :: rest,
      fs_base64_dtable s ≠ 0x80 := by
    intro s hs
    have hmem : s ∈ src.filter (fun c => fs_base64_dtable c != 0x80) := by
      rw [hsplit]; exact hs
    simpa using List.of_mem_filter hmem
  simp only [fs_base64_decode]
  split_ifs
  · rfl
  · rfl
  · rw [loop_filter, hsplit]
    obtain ⟨ch', heq⟩ := loop_pre pre hpre4
      (fun s hs => hvalid s (List.mem_append_left _ hs)) hpre61 c
      (s0 :: s1 :: s2 :: s3 :: rest)
    rw [heq]
    exact loop_quad_pad_fail ch' s0 s1 s2 s3 rest
      (hvalid s0 (by simp)) (hvalid s1 (by simp))
      (hvalid s2 (by simp)) (hvalid s3 (by simp)) hpad

/-- C3: for every input string in which the decoder's block of 4 that
completes with padding (the aligned quad of valid symbols containing the
first `'='`) holds 3 or 4 `'='` characters, the base64 decode fails:
`fs_load_base64` returns false, the result is FAILED, and no partial output
is considered valid, `fs_data` returning an empty range. -/
theorem fs_load_base64_bad_padding (ch : FsChannelState)
    (name src pre rest : List Nat) (s0 s1 s2 s3 : Nat)
    (hsplit : src.filter (fun c => fs_base64_dtable c != 0x80) =
      pre ++ s0 :: s1 :: s2 :: s3 :: rest)
    (hpre4 : pre.length % 4 = 0)
    (hpre61 : ∀ s ∈ pre, s ≠ 61)
    (hpad : 3 ≤ (([s0, s1, s2, s3].filter (fun c => c == 61)).length)) :
    (fs_load_base64 ch name src).1 = false ∧
    (fs_load_base64 ch name src).2.result = FSResult.failed ∧
    fs_data (fs_load_base64 ch name src).2 = [] := by
  rw [load_base64_eq,
    decode_bad_padding _ src pre rest s0 s1 s2 s3 hsplit hpre4 hpre61 hpad]
  refine ⟨by simp, by simp, by simp [fs_data]⟩

/-- Witness for C3: the input "a===" (valid symbol count 4, the single quad
contains 3 padding characters) fails with FAILED and empty `fs_data`. -/
theorem fs_load_base64_bad_padding_witness :
    ([97, 61, 61, 61].filter (fun c => fs_base64_dtable c != 0x80) =
      [] ++ 97 :: 61 :: 61 :: 61 :: []) ∧
    (3 ≤ (([97, 61, 61, 61].filter (fun c => c == 61)).length)) ∧
    (fs_load_base64 fs_init_channel [98] [97, 61, 61, 61]).1 = false ∧
    (fs_load_base64 fs_init_channel [98] [97, 61, 61, 61]).2.result =
      FSResult.failed ∧
    fs_data (fs_load_base64 fs_init_channel [98] [97, 61, 61, 61]).2 = [] := by
  refine ⟨by decide, by decide, ?_⟩
  exact fs_load_base64_bad_padding fs_init_channel [98] [97, 61, 61, 61] [] []
    97 61 61 61 (by decide) (by decide) (by simp) (by decide)

theorem loop_size_le (src : List Nat) : ∀ (blk : List Nat) (pad : Nat)
    (ch : FsChannelState),
    (fs_base64_decode_loop ch blk pad src).2.size ≤
      ch.size + 3 * ((blk.length + fs_base64_count src) / 4) := by
  induction src with
  | nil => intro blk pad ch; simp [fs_base64_decode_loop]
  | cons c rest ih =>
    intro blk pad ch
    by_cases hc : fs_base64_dtable c = 0x80
    · rw [loop_cons_invalid _ _ _ _ _ hc,
        show fs_base64_count (c :: rest) = fs_base64_count rest by
          simp [fs_base64_count, List.filter_cons, hc]]
      exact ih blk pad ch
    · have hcount : fs_base64_count (c :: rest) = 1 + fs_base64_count rest := by
        simp [fs_base64_count, List.filter_cons, hc]
        omega
      simp only [fs_base64_decode_loop]
      rw [if_neg hc]
      by_cases hlen : (blk ++ [fs_base64_dtable c]).length = 4
      · have hblk : blk.length = 3 := by simpa using hlen
        rw [if_pos hlen]
        by_cases hp : 0 < (if c = 61 then pad + 1 else pad)
        · rw [if_pos hp]
          by_cases hp2 : (if c = 61 then pad + 1 else pad) ≤ 2
          · rw [if_pos hp2]
            show ch.size + 1 + 1 + 1 - _ ≤ _
            rw [hcount, hblk]
            omega
          · rw [if_neg hp2]
            show ch.size + 1 + 1 + 1 ≤ _
            rw [hcount, hblk]
            omega
        · rw [if_neg hp]
          refine le_trans (ih [] (if c = 61 then pad + 1 else pad) _) ?_
          simp only [List.length_nil]
          rw [hcount, hblk]
          simp
          omega
      · rw [if_neg hlen]
        have := ih (blk ++ [fs_base64_dtable c]) (if c = 61 then pad + 1 else pad) ch
        rw [hcount]
        simp only [List.length_append, List.length_cons, List.length_nil] at this
        omega

theorem decode_size_le (ch : FsChannelState) (src : List Nat) (hsz : ch.size = 0) :
    (fs_base64_decode ch src).2.size ≤ FS_MAX_SIZE := by
  simp only [fs_base64_decode]
  split_ifs with h1 h2
  · simpa using Nat.le_of_eq hsz |>.trans (Nat.zero_le _)
  · simpa using Nat.le_of_eq hsz |>.trans (Nat.zero_le _)
  · have hb := loop_size_le src [] 0 ch
    simp only [List.length_nil] at hb
    rw [hsz] at hb
    omega

theorem step_size_le (ch : FsChannelState) (op : FsOp) (hok : fs_op_ok op)
    (h : ch.size ≤ FS_MAX_SIZE) : (fs_step ch op).size ≤ FS_MAX_SIZE := by
  cases op with
  | reset => exact Nat.zero_le _
  | loadBase64 name payload =>
      show (fs_load_base64 ch name payload).2.size ≤ FS_MAX_SIZE
      rw [load_base64_eq]
      by_cases hd : (fs_base64_decode
          { fs_reset ch with path := fs_path_printf (fs_reset ch).path name }
          payload).1 <;>
        simp only [hd, if_true, if_false, Bool.false_eq_true] <;>
        exact decode_size_le _ payload rfl
  | loadFileAsync path => exact Nat.zero_le _
  | fetchCompleted fetched failed data =>
      show (fs_fetch_callback ch fetched failed data).size ≤ FS_MAX_SIZE
      simp only [fs_fetch_callback]
      split_ifs
      · exact hok
      · exact h
      · exact h

theorem run_size_le (ops : List FsOp) : ∀ ch : FsChannelState,
    (∀ op ∈ ops, fs_op_ok op) → ch.size ≤ FS_MAX_SIZE →
    (fs_run ch ops).size ≤ FS_MAX_SIZE := by
  induction ops with
  | nil => exact fun ch _ h => h
  | cons op ops ih =>
      intro ch hok h
      exact ih _ (fun o ho => hok o (by simp [ho]))
        (step_size_le ch op (hok op (by simp)) h)

/-- C5: for every sequence of public operations (reset, base64 load, async
load start, async fetch completion within the engine contract) applied to a
freshly initialized channel, the channel's data length never exceeds
FS_MAX_SIZE, although the backing buffer holds FS_MAX_SIZE + 1 bytes: one
byte always remains reserved past the valid range for a trailing NUL. -/
theorem fs_channel_size_invariant (ops : List FsOp)
    (hok : ∀ op ∈ ops, fs_op_ok op) :
    (fs_run fs_init_channel ops).size ≤ FS_MAX_SIZE :=
  run_size_le ops fs_init_channel hok (Nat.zero_le _)

/-- Witness for C5: a base64 load, a 3-byte fetch completion and a reset keep
the size within FS_MAX_SIZE. -/
theorem fs_channel_size_invariant_witness :
    (∀ op ∈ [FsOp.loadBase64 [100] [97, 71, 86, 115, 98, 71, 56, 61],
        FsOp.fetchCompleted true false [1, 2, 3], FsOp.reset], fs_op_ok op) ∧
    (fs_run fs_init_channel
      [FsOp.loadBase64 [100] [97, 71, 86, 115, 98, 71, 56, 61],
        FsOp.fetchCompleted true false [1, 2, 3], FsOp.reset]).size ≤
      FS_MAX_SIZE := by
  have hok : ∀ op ∈ [FsOp.loadBase64 [100] [97, 71, 86, 115, 98, 71, 56, 61],
      FsOp.fetchCompleted true false [1, 2, 3], FsOp.reset], fs_op_ok op := by
    intro op hop
    simp only [List.mem_cons, List.not_mem_nil, or_false] at hop
    rcases hop with rfl | rfl | rfl
    · trivial
    · show (3 : Nat) ≤ FS_MAX_SIZE
      norm_num [FS_MAX_SIZE]
    · trivial
  exact ⟨hok, fs_channel_size_invariant _ hok⟩

/-- C7: a formatted path whose untruncated length reaches or exceeds the
256-byte capacity has `clamped` (truncated) set, and for every clamped
snapshot path both `fs_save_snapshot` (on inputs satisfying its assert
precondition) and `fs_load_snapshot_async` return false immediately, with no
write performed and no fetch request scheduled. -/
theorem fs_snapshot_clamped_path (p : FsPath) (s sys : List Nat) (idx : Nat)
    (data : ChipsRange) (fopen_ok : Bool)
    (hs : FS_PATH_SIZE ≤ s.length)
    (hc : (fs_make_snapshot_path fs_tmp_dir sys idx).clamped = true)
    (hd : ¬(data.ptrIsNull = true ∨ data.bytes.length = 0)) :
    (fs_path_printf p s).clamped = true ∧
    fs_save_snapshot sys idx data fopen_ok = some (false, none) ∧
    fs_load_snapshot_async sys idx = (false, none) := by
  refine ⟨by simp [fs_path_printf, hs], ?_, ?_⟩
  · simp only [fs_save_snapshot]
    rw [if_neg (by simpa using hd), if_pos hc]
  · simp only [fs_load_snapshot_async]
    rw [if_pos hc]

/-- Witness for C7: a 300-character system name makes the snapshot path
overflow its 256-byte buffer, so saving and async-loading both refuse. -/
theorem fs_snapshot_clamped_path_witness :
    FS_PATH_SIZE ≤ (List.replicate 256 97).length ∧
    (fs_make_snapshot_path fs_tmp_dir (List.replicate 300 97) 2).clamped = true ∧
    (fs_path_printf fs_path_reset (List.replicate 256 97)).clamped = true ∧
    fs_save_snapshot (List.replicate 300 97) 2
      { ptrIsNull := false, bytes := [1] } true = some (false, none) ∧
    fs_load_snapshot_async (List.replicate 300 97) 2 = (false, none) := by
  have h := fs_snapshot_clamped_path fs_path_reset (List.replicate 256 97)
    (List.replicate 300 97) 2 { ptrIsNull := false, bytes := [1] } true
    (by decide) (by decide) (by decide)
  exact ⟨by decide, by decide, h.1, h.2.1, h.2.2⟩

/-- Counterexample for C8: calling the desktop `fs_save_snapshot` with an
empty byte range does not return false with no write: it violates the
function's own `assert(system_name && data.ptr && data.size > 0)`
(modelled as `none`), rather than returning `some (false, none)`. -/
theorem fs_save_snapshot_empty_not_false :
    fs_save_snapshot [122, 49, 48, 49, 51] 2
      { ptrIsNull := true, bytes := [] } true = none ∧
    ¬(fs_save_snapshot [122, 49, 48, 49, 51] 2
        { ptrIsNull := true, bytes := [] } true = some (false, none)) := by
  decide

/-- C8 (amended): for every call to `fs_save_snapshot` with an empty or null
byte range the assert on the input fails — a precondition violation with no
write performed — instead of an ordinary false return. -/
theorem fs_save_snapshot_empty_asserts (sys : List Nat) (idx : Nat)
    (data : ChipsRange) (fopen_ok : Bool)
    (h : data.ptrIsNull = true ∨ data.bytes.length = 0) :
    fs_save_snapshot sys idx data fopen_ok = none := by
  simp only [fs_save_snapshot]
  rw [if_pos (by simpa using h)]

/-- Witness for the amended C8 at the concrete input "z1013", slot 2, null
empty range. -/
theorem fs_save_snapshot_empty_asserts_witness :
    (({ ptrIsNull := true, bytes := [] } : ChipsRange).ptrIsNull = true ∨
      ({ ptrIsNull := true, bytes := [] } : ChipsRange).bytes.length = 0) ∧
    fs_save_snapshot [122, 49, 48, 49, 51] 2
      { ptrIsNull := true, bytes := [] } true = none :=
  ⟨by decide,
   fs_save_snapshot_empty_asserts [122, 49, 48, 49, 51] 2
     { ptrIsNull := true, bytes := [] } true (by decide)⟩

